import Mathlib

/-!
Verification of `src/lib/util/with_limits.hpp` (OTTO): bounded numeric value
holders `StaticallyBounded<T, min, max, wrap>` and `DynamicallyBounded<T, wrap>`.

Integral instantiations are embedded with `T = Int`; floating-point
instantiations are embedded with `T = ℚ` (exact rational arithmetic standing
in for `float`, including the `normalize()` result type).
-/

namespace otto.util

/-- Reference semantics of `std::clamp(v, lo, hi)` from `<algorithm>`:
returns `lo` if `v < lo`, else `hi` if `hi < v`, else `v`.
(The C++ standard makes behaviour undefined when `lo > hi`; this embedding
uses the reference implementation's comparison sequence in that case.) -/
def stdClamp {α : Type} [LinearOrder α] (v lo hi : α) : α :=
  if v < lo then lo else if hi < v then hi else v

/-- Reference semantics of `std::max(a, b)`: returns `b` if `a < b`, else `a`. -/
def stdMax {α : Type} [LinearOrder α] (a b : α) : α :=
  if a < b then b else a

namespace math

/-- Modelled from the spec: `util::math::modulo` lives in `math.hpp`, which is
not among the provided sources. §6 of the spec gives its contract: for
`length > 0`, `modulo x length = x − k·length` for some integer `k` with
`0 ≤ result < length` (floored / Euclidean modulo). For `Int`, Lean's `%`
(`Int.emod`) satisfies exactly this contract for positive `length`. -/
def modulo (x length : Int) : Int := x % length

/-- Modelled from the spec: the floored-modulo primitive at rational type
(the `float` instantiations of the templates call the same
`util::math::modulo`). `x − length·⌊x/length⌋`, which for `length > 0` lies
in `[0, length)` and differs from `x` by an integer multiple of `length`. -/
def moduloQ (x length : ℚ) : ℚ := x - length * ⌊x / length⌋

end math

/-- `StaticallyBounded<T, min, max, wrap>` with `T` integral (embedded as
`Int`): template parameters `min`, `max`, `wrap` are type-level, the only
field is `value_`. -/
structure StaticallyBounded (min max : Int) (wrap : Bool) where
  value_ : Int
deriving DecidableEq, Repr

namespace StaticallyBounded

variable {min max : Int} {wrap : Bool}

/-- Constructor `StaticallyBounded(T init_val)`:
`value_ = std::clamp(init_val, min, max)` (unconditionally, for any `wrap`). -/
def construct (min max : Int) (wrap : Bool) (init_val : Int) :
    StaticallyBounded min max wrap :=
  ⟨stdClamp init_val min max⟩

/-- `operator=(const T in)`: the single normalization entry point. In wrap
mode, out-of-range input is mapped to `min_ + modulo(in - min_, length)` with
`length = max - min` plus 1 for integral `T`; in-range input passes through.
In clamp mode, `value_ = std::clamp(in, min, max)`. -/
def assign (min max : Int) (wrap : Bool) (v : Int) :
    StaticallyBounded min max wrap :=
  if wrap then
    if v < min ∨ v > max then
      ⟨min + math.modulo (v - min) (max - min + 1)⟩
    else
      ⟨v⟩
  else
    ⟨stdClamp v min max⟩

/-- `operator+=`: computes the raw sum, then funnels through `operator=`. -/
def addAssign (s : StaticallyBounded min max wrap) (v : Int) :
    StaticallyBounded min max wrap :=
  assign min max wrap (s.value_ + v)

/-- `operator-=`. -/
def subAssign (s : StaticallyBounded min max wrap) (v : Int) :
    StaticallyBounded min max wrap :=
  assign min max wrap (s.value_ - v)

/-- The source's "prefix" `operator++()`: copies `*this` into `tmp`, assigns
`value_ + 1` to the receiver, and returns `tmp` by value. Result pair:
(receiver after the call, returned object). -/
def preInc (s : StaticallyBounded min max wrap) :
    StaticallyBounded min max wrap × StaticallyBounded min max wrap :=
  (assign min max wrap (s.value_ + 1), s)

/-- The source's "postfix" `operator++(int)`: assigns `value_ + 1` to the
receiver and returns `*this` by reference. Result pair:
(receiver after the call, returned object). -/
def postInc (s : StaticallyBounded min max wrap) :
    StaticallyBounded min max wrap × StaticallyBounded min max wrap :=
  let s' := assign min max wrap (s.value_ + 1)
  (s', s')

/-- The source's "prefix" `operator--()`: snapshot, assign `value_ - 1`,
return the snapshot. -/
def preDec (s : StaticallyBounded min max wrap) :
    StaticallyBounded min max wrap × StaticallyBounded min max wrap :=
  (assign min max wrap (s.value_ - 1), s)

/-- The source's "postfix" `operator--(int)`: assign `value_ - 1`, return the
mutated receiver. -/
def postDec (s : StaticallyBounded min max wrap) :
    StaticallyBounded min max wrap × StaticallyBounded min max wrap :=
  let s' := assign min max wrap (s.value_ - 1)
  (s', s')

/-- `normalize()`: `static_cast<float>(value_ - min) / static_cast<float>(max - min)`,
embedded with exact rationals in place of `float`. -/
def normalize (s : StaticallyBounded min max wrap) : ℚ :=
  ((s.value_ - min : Int) : ℚ) / ((max - min : Int) : ℚ)

/-- `operator==` on two `StaticallyBounded` of the same instantiation:
compares the converted-out values. -/
def beq (lhs rhs : StaticallyBounded min max wrap) : Bool :=
  lhs.value_ == rhs.value_

/-- `operator!=` on two `StaticallyBounded` of the same instantiation. -/
def bne (lhs rhs : StaticallyBounded min max wrap) : Bool :=
  lhs.value_ != rhs.value_

end StaticallyBounded

/-- `DynamicallyBounded<T, wrap>`: fields `value_`, `min_`, `max_` of the
underlying numeric type; `wrap` is a template parameter. -/
structure DynamicallyBounded (α : Type) (wrap : Bool) where
  value_ : α
  min_ : α
  max_ : α
deriving DecidableEq, Repr

namespace DynamicallyBounded

variable {α : Type} [LinearOrder α] {wrap : Bool}

/-- Constructor `DynamicallyBounded(T init_val, T min, T max)`: member inits
`min_(min), max_(max)`, then `max_ = std::max(min_, max_)`, then
`value_ = std::clamp(init_val, min, max)` — note the clamp uses the raw
constructor parameters `min, max`, not the corrected fields. -/
def construct (wrap : Bool) (init_val min max : α) : DynamicallyBounded α wrap :=
  { value_ := stdClamp init_val min max
    min_ := min
    max_ := stdMax min max }

/-- Getter `min()`. -/
def getMin (s : DynamicallyBounded α wrap) : α := s.min_

/-- Getter `max()`. -/
def getMax (s : DynamicallyBounded α wrap) : α := s.max_

/-- Setter `min(const T new_min)`: `if (new_min <= max_) min_ = new_min;`. -/
def setMin (s : DynamicallyBounded α wrap) (new_min : α) : DynamicallyBounded α wrap :=
  if new_min ≤ s.max_ then { s with min_ := new_min } else s

/-- Setter `max(const T new_max)`: `if (min_ <= new_max) max_ = new_max;`. -/
def setMax (s : DynamicallyBounded α wrap) (new_max : α) : DynamicallyBounded α wrap :=
  if s.min_ ≤ new_max then { s with max_ := new_max } else s

/-- `operator=(const T in)` for integral `T` (embedded as `Int`): wrap mode
uses `length = max() - min() + 1` (the `+ 1` from `is_integral_v<T>`); clamp
mode uses `std::clamp` against the live fields. -/
def assign (s : DynamicallyBounded Int wrap) (v : Int) : DynamicallyBounded Int wrap :=
  if wrap then
    if v < s.min_ ∨ v > s.max_ then
      { s with value_ := s.min_ + math.modulo (v - s.min_) (s.max_ - s.min_ + 1) }
    else
      { s with value_ := v }
  else
    { s with value_ := stdClamp v s.min_ s.max_ }

/-- `operator=(const T in)` for floating `T` (embedded as `ℚ`): wrap mode
uses `length = max() - min()` (no `+ 1`, since `T` is not integral). -/
def assignQ (s : DynamicallyBounded ℚ wrap) (v : ℚ) : DynamicallyBounded ℚ wrap :=
  if wrap then
    if v < s.min_ ∨ v > s.max_ then
      { s with value_ := s.min_ + math.moduloQ (v - s.min_) (s.max_ - s.min_) }
    else
      { s with value_ := v }
  else
    { s with value_ := stdClamp v s.min_ s.max_ }

/-- `normalize()` for integral `T`:
`static_cast<float>(value_ - min_) / static_cast<float>(max_ - min_)`,
embedded with exact rationals in place of `float`. -/
def normalize (s : DynamicallyBounded Int wrap) : ℚ :=
  ((s.value_ - s.min_ : Int) : ℚ) / ((s.max_ - s.min_ : Int) : ℚ)

/-- `normalize()` for floating `T` (embedded as `ℚ`). -/
def normalizeQ (s : DynamicallyBounded ℚ wrap) : ℚ :=
  (s.value_ - s.min_) / (s.max_ - s.min_)

/-- `operator==` on two `DynamicallyBounded` of the same instantiation:
converted values, mins and maxes must all match. -/
def beq [DecidableEq α] (lhs rhs : DynamicallyBounded α wrap) : Bool :=
  lhs.value_ == rhs.value_ && lhs.getMin == rhs.getMin && lhs.getMax == rhs.getMax

/-- `operator!=` on two `DynamicallyBounded` of the same instantiation. -/
def bne [DecidableEq α] (lhs rhs : DynamicallyBounded α wrap) : Bool :=
  lhs.value_ != rhs.value_ || lhs.getMin != rhs.getMin || lhs.getMax != rhs.getMax

/-- A bound-mutating call on the runtime variant: either `min(v)` or `max(v)`. -/
inductive BoundOp (α : Type) where
  | smin (v : α)
  | smax (v : α)

/-- Apply one bound-setter call. -/
def applyBoundOp (s : DynamicallyBounded α wrap) : BoundOp α → DynamicallyBounded α wrap
  | .smin v => s.setMin v
  | .smax v => s.setMax v

/-- Apply a sequence of bound-setter calls, left to right. -/
def applyBoundOps (s : DynamicallyBounded α wrap) (ops : List (BoundOp α)) :
    DynamicallyBounded α wrap :=
  ops.foldl (fun t op => applyBoundOp t op) s

end DynamicallyBounded

/-! ## Helper lemmas -/

theorem stdClamp_ge {α : Type} [LinearOrder α] {v lo hi : α} (h : lo ≤ hi) :
    lo ≤ stdClamp v lo hi := by
  unfold stdClamp
  split_ifs with h1 h2
  · exact le_refl lo
  · exact h
  · exact le_of_not_lt h1

theorem stdClamp_le {α : Type} [LinearOrder α] {v lo hi : α} (h : lo ≤ hi) :
    stdClamp v lo hi ≤ hi := by
  unfold stdClamp
  split_ifs with h1 h2
  · exact h
  · exact le_refl hi
  · exact le_of_not_lt h2

theorem stdClamp_of_mem {α : Type} [LinearOrder α] {v lo hi : α}
    (h1 : lo ≤ v) (h2 : v ≤ hi) : stdClamp v lo hi = v := by
  unfold stdClamp
  rw [if_neg (not_lt.mpr h1), if_neg (not_lt.mpr h2)]

theorem stdClamp_of_lt {α : Type} [LinearOrder α] {v lo hi : α} (h : v < lo) :
    stdClamp v lo hi = lo := by
  unfold stdClamp
  rw [if_pos h]

theorem stdClamp_of_gt {α : Type} [LinearOrder α] {v lo hi : α}
    (h1 : lo ≤ v) (h2 : hi < v) : stdClamp v lo hi = hi := by
  unfold stdClamp
  rw [if_neg (not_lt.mpr h1), if_pos h2]

theorem modulo_nonneg (x : Int) {L : Int} (h : 0 < L) : 0 ≤ math.modulo x L :=
  Int.emod_nonneg x (ne_of_gt h)

theorem modulo_lt (x : Int) {L : Int} (h : 0 < L) : math.modulo x L < L :=
  Int.emod_lt_of_pos x h

theorem modulo_sub_emod (x L : Int) : (math.modulo x L - x) % L = 0 := by
  unfold math.modulo
  rw [Int.sub_emod, Int.emod_emod_of_dvd x dvd_rfl, sub_self, Int.zero_emod]

/-- Core fact about the wrap branch for integral types: for a valid range the
result `min + modulo(v - min, max - min + 1)` lies in `[min, max]` and is
congruent to `v` modulo the range length. -/
theorem wrap_core (mi ma v : Int) (h : mi ≤ ma) :
    mi ≤ mi + math.modulo (v - mi) (ma - mi + 1) ∧
    mi + math.modulo (v - mi) (ma - mi + 1) ≤ ma ∧
    math.modulo (mi + math.modulo (v - mi) (ma - mi + 1) - v) (ma - mi + 1) = 0 := by
  have hL : 0 < ma - mi + 1 := by omega
  have h1 := modulo_nonneg (v - mi) hL
  have h2 := modulo_lt (v - mi) hL
  refine ⟨by omega, by omega, ?_⟩
  have h3 := modulo_sub_emod (v - mi) (ma - mi + 1)
  have : mi + math.modulo (v - mi) (ma - mi + 1) - v
      = math.modulo (v - mi) (ma - mi + 1) - (v - mi) := by ring
  rw [this]
  exact h3

theorem moduloQ_nonneg (x : ℚ) {L : ℚ} (h : 0 < L) : 0 ≤ math.moduloQ x L := by
  unfold math.moduloQ
  have h1 : (⌊x / L⌋ : ℚ) ≤ x / L := Int.floor_le _
  have h2 : (⌊x / L⌋ : ℚ) * L ≤ x := (le_div_iff₀ h).mp h1
  linarith

theorem moduloQ_lt (x : ℚ) {L : ℚ} (h : 0 < L) : math.moduloQ x L < L := by
  unfold math.moduloQ
  have h1 : x / L < (⌊x / L⌋ : ℚ) + 1 := Int.lt_floor_add_one _
  have h2 : x < ((⌊x / L⌋ : ℚ) + 1) * L := (div_lt_iff₀ h).mp h1
  linarith

theorem moduloQ_int_mul {L : ℚ} (hL : L ≠ 0) (k : ℤ) : math.moduloQ ((k : ℚ) * L) L = 0 := by
  unfold math.moduloQ
  rw [mul_div_assoc, div_self hL, mul_one, Int.floor_intCast]
  ring

/-! ## Claim theorems -/

/-- C1: the claim states that constructing `DynamicallyBounded` with
`min > max` first raises `max` to `min` and then clamps the initial value
against the *corrected* range, so that `min=5, max=2` yields stored value 5
regardless of the initial value. The code instead corrects `max_` but passes
the raw parameters `min=5, max=2` to `std::clamp`, violating `std::clamp`'s
`lo ≤ hi` precondition; under the reference comparison sequence,
`init_val = 7` stores 2 — outside the corrected range `[5,5]`. -/
theorem C1_construct_min_gt_max_clamps_uncorrected :
    DynamicallyBounded.construct false (7 : Int) 5 2 =
      { value_ := 2, min_ := 5, max_ := 5 } ∧
    ¬ ((DynamicallyBounded.construct false (7 : Int) 5 2).min_ ≤
        (DynamicallyBounded.construct false (7 : Int) 5 2).value_) := by
  constructor
  · rfl
  · decide

/-- C3: construction of either variant clamps the initial value into
`[min, max]` for every wrap flag: in-range initial values are stored exactly,
and out-of-range initial values are pulled to the nearest bound (never a
wrapped value). Both variants store the same clamped result. -/
theorem C3_construct_always_clamps (mi ma init : Int) (w : Bool) (h : mi ≤ ma) :
    (mi ≤ (StaticallyBounded.construct mi ma w init).value_ ∧
      (StaticallyBounded.construct mi ma w init).value_ ≤ ma ∧
      (init < mi → (StaticallyBounded.construct mi ma w init).value_ = mi) ∧
      (ma < init → (StaticallyBounded.construct mi ma w init).value_ = ma) ∧
      (mi ≤ init → init ≤ ma → (StaticallyBounded.construct mi ma w init).value_ = init)) ∧
    (DynamicallyBounded.construct w init mi ma).value_ =
      (StaticallyBounded.construct mi ma w init).value_ := by
  refine ⟨⟨stdClamp_ge h, stdClamp_le h, ?_, ?_, ?_⟩, rfl⟩
  · intro hlt
    exact stdClamp_of_lt hlt
  · intro hgt
    exact stdClamp_of_gt (by omega) hgt
  · intro h1 h2
    exact stdClamp_of_mem h1 h2

/-- C3 witness: range `[0, 127]`, wrap mode, initial value 200 is clamped to
127 (not wrapped). -/
theorem C3_construct_always_clamps_witness :
    (0 : Int) ≤ 127 ∧
      ((0 ≤ (StaticallyBounded.construct 0 127 true 200).value_ ∧
        (StaticallyBounded.construct 0 127 true 200).value_ ≤ 127 ∧
        ((200 : Int) < 0 → (StaticallyBounded.construct 0 127 true 200).value_ = 0) ∧
        ((127 : Int) < 200 → (StaticallyBounded.construct 0 127 true 200).value_ = 127) ∧
        ((0 : Int) ≤ 200 → (200 : Int) ≤ 127 →
          (StaticallyBounded.construct 0 127 true 200).value_ = 200)) ∧
      (DynamicallyBounded.construct true 200 0 127).value_ =
        (StaticallyBounded.construct 0 127 true 200).value_) :=
  ⟨by decide, C3_construct_always_clamps 0 127 200 true (by decide)⟩

/-- C7: clamp-mode assignment (`wrap = false`) of either variant always lands
in `[min, max]`, stores in-range inputs exactly, and pulls out-of-range
inputs to the nearest bound. -/
theorem C7_clamp_assign (mi ma v : Int) (h : mi ≤ ma)
    (d : DynamicallyBounded Int false) (hd : d.min_ ≤ d.max_) (v2 : Int) :
    (mi ≤ (StaticallyBounded.assign mi ma false v).value_ ∧
      (StaticallyBounded.assign mi ma false v).value_ ≤ ma ∧
      (mi ≤ v → v ≤ ma → (StaticallyBounded.assign mi ma false v).value_ = v) ∧
      (v < mi → (StaticallyBounded.assign mi ma false v).value_ = mi) ∧
      (ma < v → (StaticallyBounded.assign mi ma false v).value_ = ma)) ∧
    (d.min_ ≤ (d.assign v2).value_ ∧
      (d.assign v2).value_ ≤ d.max_ ∧
      (d.min_ ≤ v2 → v2 ≤ d.max_ → (d.assign v2).value_ = v2) ∧
      (v2 < d.min_ → (d.assign v2).value_ = d.min_) ∧
      (d.max_ < v2 → (d.assign v2).value_ = d.max_)) := by
  constructor
  · show mi ≤ stdClamp v mi ma ∧ stdClamp v mi ma ≤ ma ∧ _
    refine ⟨stdClamp_ge h, stdClamp_le h, fun h1 h2 => stdClamp_of_mem h1 h2,
      fun hlt => stdClamp_of_lt hlt, fun hgt => stdClamp_of_gt (by omega) hgt⟩
  · show d.min_ ≤ stdClamp v2 d.min_ d.max_ ∧ stdClamp v2 d.min_ d.max_ ≤ d.max_ ∧ _
    refine ⟨stdClamp_ge hd, stdClamp_le hd, fun h1 h2 => stdClamp_of_mem h1 h2,
      fun hlt => stdClamp_of_lt hlt, fun hgt => stdClamp_of_gt (by omega) hgt⟩

/-- C7 witness: range `[0, 127]` in clamp mode, assigning −5 stores 0, for
both variants. -/
theorem C7_clamp_assign_witness :
    (0 : Int) ≤ 127 ∧
    (⟨10, 0, 127⟩ : DynamicallyBounded Int false).min_ ≤
      (⟨10, 0, 127⟩ : DynamicallyBounded Int false).max_ ∧
    (StaticallyBounded.assign 0 127 false (-5)).value_ = 0 ∧
    ((⟨10, 0, 127⟩ : DynamicallyBounded Int false).assign (-5)).value_ = 0 := by
  have h := C7_clamp_assign 0 127 (-5) (by decide) ⟨10, 0, 127⟩ (by decide) (-5)
  exact ⟨by decide, by decide, h.1.2.2.2.1 (by decide), h.2.2.2.2.1 (by decide)⟩

/-- C2: wrap-mode assignment of either variant stores a value in
`[min, max]` congruent to the input modulo the range length — for integral
types (embedded as `Int`) the length is `max − min + 1`, for non-integral
types (embedded as `ℚ`) it is `max − min` — and an out-of-range input is
stored as `min + floored_modulo(v − min, length)`. -/
theorem C2_wrap_assign (mi ma v : Int) (h : mi ≤ ma)
    (d : DynamicallyBounded Int true) (hd : d.min_ ≤ d.max_) (v2 : Int)
    (q : DynamicallyBounded ℚ true) (hq : q.min_ < q.max_) (v3 : ℚ) :
    (mi ≤ (StaticallyBounded.assign mi ma true v).value_ ∧
      (StaticallyBounded.assign mi ma true v).value_ ≤ ma ∧
      math.modulo ((StaticallyBounded.assign mi ma true v).value_ - v) (ma - mi + 1) = 0 ∧
      (v < mi ∨ v > ma →
        (StaticallyBounded.assign mi ma true v).value_ =
          mi + math.modulo (v - mi) (ma - mi + 1))) ∧
    (d.min_ ≤ (d.assign v2).value_ ∧
      (d.assign v2).value_ ≤ d.max_ ∧
      math.modulo ((d.assign v2).value_ - v2) (d.max_ - d.min_ + 1) = 0 ∧
      (v2 < d.min_ ∨ v2 > d.max_ →
        (d.assign v2).value_ = d.min_ + math.modulo (v2 - d.min_) (d.max_ - d.min_ + 1))) ∧
    (q.min_ ≤ (q.assignQ v3).value_ ∧
      (q.assignQ v3).value_ ≤ q.max_ ∧
      math.moduloQ ((q.assignQ v3).value_ - v3) (q.max_ - q.min_) = 0 ∧
      (v3 < q.min_ ∨ v3 > q.max_ →
        (q.assignQ v3).value_ = q.min_ + math.moduloQ (v3 - q.min_) (q.max_ - q.min_))) := by
  refine ⟨?_, ?_, ?_⟩
  · unfold StaticallyBounded.assign
    rw [if_pos rfl]
    split_ifs with hc
    · obtain ⟨a1, a2, a3⟩ := wrap_core mi ma v h
      exact ⟨a1, a2, a3, fun _ => rfl⟩
    · push_neg at hc
      refine ⟨hc.1, hc.2, ?_, fun hcc => absurd hcc (by push_neg; exact hc)⟩
      show math.modulo (v - v) _ = 0
      rw [sub_self]
      exact Int.zero_emod _
  · unfold DynamicallyBounded.assign
    rw [if_pos rfl]
    split_ifs with hc
    · obtain ⟨a1, a2, a3⟩ := wrap_core d.min_ d.max_ v2 hd
      exact ⟨a1, a2, a3, fun _ => rfl⟩
    · push_neg at hc
      refine ⟨hc.1, hc.2, ?_, fun hcc => absurd hcc (by push_neg; exact hc)⟩
      show math.modulo (v2 - v2) _ = 0
      rw [sub_self]
      exact Int.zero_emod _
  · unfold DynamicallyBounded.assignQ
    rw [if_pos rfl]
    split_ifs with hc
    · have hL : (0 : ℚ) < q.max_ - q.min_ := by linarith
      have h1 := moduloQ_nonneg (v3 - q.min_) hL
      have h2 := moduloQ_lt (v3 - q.min_) hL
      refine ⟨by dsimp only; linarith, by dsimp only; linarith, ?_, fun _ => rfl⟩
      have hdiff : q.min_ + math.moduloQ (v3 - q.min_) (q.max_ - q.min_) - v3
          = ((-⌊(v3 - q.min_) / (q.max_ - q.min_)⌋ : ℤ) : ℚ) * (q.max_ - q.min_) := by
        unfold math.moduloQ
        push_cast
        ring
      show math.moduloQ (q.min_ + math.moduloQ (v3 - q.min_) (q.max_ - q.min_) - v3)
        (q.max_ - q.min_) = 0
      rw [hdiff]
      exact moduloQ_int_mul (ne_of_gt hL) _
    · push_neg at hc
      refine ⟨hc.1, hc.2, ?_, fun hcc => absurd hcc (by push_neg; exact hc)⟩
      show math.moduloQ (v3 - v3) _ = 0
      rw [sub_self]
      unfold math.moduloQ
      simp

/-- C2 witness: integral range `[0, 11]` in wrap mode, assign 15: stored
value 3 for both the compile-time and the runtime variant; rational range
`[0, 1]` in wrap mode, assign 5/4: stored value 1/4. -/
theorem C2_wrap_assign_witness :
    (0 : Int) ≤ 11 ∧
    (⟨3, 0, 11⟩ : DynamicallyBounded Int true).min_ ≤
      (⟨3, 0, 11⟩ : DynamicallyBounded Int true).max_ ∧
    (⟨0, 0, 1⟩ : DynamicallyBounded ℚ true).min_ <
      (⟨0, 0, 1⟩ : DynamicallyBounded ℚ true).max_ ∧
    (StaticallyBounded.assign 0 11 true 15).value_ = 3 ∧
    ((⟨3, 0, 11⟩ : DynamicallyBounded Int true).assign 15).value_ = 3 ∧
    ((⟨0, 0, 1⟩ : DynamicallyBounded ℚ true).assignQ (5/4)).value_ = 1/4 ∧
    math.modulo ((StaticallyBounded.assign 0 11 true 15).value_ - 15) 12 = 0 := by
  have h := C2_wrap_assign 0 11 15 (by decide) ⟨3, 0, 11⟩ (by decide) 15
    ⟨0, 0, 1⟩ (by norm_num) (5/4)
  refine ⟨by decide, by decide, by norm_num, by decide, by decide, ?_, ?_⟩
  · norm_num [DynamicallyBounded.assignQ, math.moduloQ]
  · have := h.1.2.2.1
    simpa using this

/-- One bound-setter call preserves the invariant `min_ ≤ max_`. -/
theorem applyBoundOp_min_le_max {α : Type} [LinearOrder α] {w : Bool}
    (s : DynamicallyBounded α w) (h : s.min_ ≤ s.max_)
    (op : DynamicallyBounded.BoundOp α) :
    (s.applyBoundOp op).min_ ≤ (s.applyBoundOp op).max_ := by
  cases op with
  | smin v =>
    show (s.setMin v).min_ ≤ (s.setMin v).max_
    unfold DynamicallyBounded.setMin
    split_ifs with hc
    · exact hc
    · exact h
  | smax v =>
    show (s.setMax v).min_ ≤ (s.setMax v).max_
    unfold DynamicallyBounded.setMax
    split_ifs with hc
    · exact hc
    · exact h

/-- Any sequence of bound-setter calls preserves the invariant `min_ ≤ max_`. -/
theorem applyBoundOps_min_le_max {α : Type} [LinearOrder α] {w : Bool}
    (ops : List (DynamicallyBounded.BoundOp α)) :
    ∀ s : DynamicallyBounded α w, s.min_ ≤ s.max_ →
      (s.applyBoundOps ops).min_ ≤ (s.applyBoundOps ops).max_ := by
  induction ops with
  | nil => exact fun s h => h
  | cons op rest ih =>
    intro s h
    have h1 : s.applyBoundOps (op :: rest) = (s.applyBoundOp op).applyBoundOps rest := rfl
    rw [h1]
    exact ih _ (applyBoundOp_min_le_max s h op)

/-- C4: starting from `min ≤ max`, any sequence of `setMin`/`setMax` calls on
the runtime variant keeps `min ≤ max`; `setMin v` takes effect exactly when
`v ≤ max` (leaving `max` untouched), `setMax v` exactly when `min ≤ v`
(leaving `min` untouched), and a rejected call leaves the whole state
unchanged. -/
theorem C4_bound_invariant {α : Type} [LinearOrder α] {w : Bool}
    (s : DynamicallyBounded α w) (h : s.getMin ≤ s.getMax)
    (ops : List (DynamicallyBounded.BoundOp α)) (v : α) :
    (s.applyBoundOps ops).getMin ≤ (s.applyBoundOps ops).getMax ∧
    (v ≤ s.getMax → (s.setMin v).getMin = v ∧ (s.setMin v).getMax = s.getMax) ∧
    (s.getMax < v → s.setMin v = s) ∧
    (s.getMin ≤ v → (s.setMax v).getMax = v ∧ (s.setMax v).getMin = s.getMin) ∧
    (v < s.getMin → s.setMax v = s) := by
  unfold DynamicallyBounded.getMin DynamicallyBounded.getMax at h ⊢
  refine ⟨applyBoundOps_min_le_max ops s h, ?_, ?_, ?_, ?_⟩
  · intro hv
    unfold DynamicallyBounded.setMin
    rw [if_pos hv]
    exact ⟨rfl, rfl⟩
  · intro hv
    unfold DynamicallyBounded.setMin
    rw [if_neg (not_le.mpr hv)]
  · intro hv
    unfold DynamicallyBounded.setMax
    rw [if_pos hv]
    exact ⟨rfl, rfl⟩
  · intro hv
    unfold DynamicallyBounded.setMax
    rw [if_neg (not_le.mpr hv)]

/-- C4 witness: bounds `[0, 10]`; `setMin 5` then `setMax 3` (rejected since
5 ≰ 3) ends with `min = 5 ≤ max = 10`, and the setter acceptance/no-op
clauses hold for `v = 99`. -/
theorem C4_bound_invariant_witness :
    (⟨0, 0, 10⟩ : DynamicallyBounded Int false).getMin ≤
      (⟨0, 0, 10⟩ : DynamicallyBounded Int false).getMax ∧
    (((⟨0, 0, 10⟩ : DynamicallyBounded Int false).applyBoundOps
        [.smin 5, .smax 3]).getMin ≤
      ((⟨0, 0, 10⟩ : DynamicallyBounded Int false).applyBoundOps
        [.smin 5, .smax 3]).getMax ∧
      ((99 : Int) ≤ (⟨0, 0, 10⟩ : DynamicallyBounded Int false).getMax →
        ((⟨0, 0, 10⟩ : DynamicallyBounded Int false).setMin 99).getMin = 99 ∧
        ((⟨0, 0, 10⟩ : DynamicallyBounded Int false).setMin 99).getMax =
          (⟨0, 0, 10⟩ : DynamicallyBounded Int false).getMax) ∧
      ((⟨0, 0, 10⟩ : DynamicallyBounded Int false).getMax < 99 →
        (⟨0, 0, 10⟩ : DynamicallyBounded Int false).setMin 99 =
          (⟨0, 0, 10⟩ : DynamicallyBounded Int false)) ∧
      ((⟨0, 0, 10⟩ : DynamicallyBounded Int false).getMin ≤ 99 →
        ((⟨0, 0, 10⟩ : DynamicallyBounded Int false).setMax 99).getMax = 99 ∧
        ((⟨0, 0, 10⟩ : DynamicallyBounded Int false).setMax 99).getMin =
          (⟨0, 0, 10⟩ : DynamicallyBounded Int false).getMin) ∧
      (99 < (⟨0, 0, 10⟩ : DynamicallyBounded Int false).getMin →
        (⟨0, 0, 10⟩ : DynamicallyBounded Int false).setMax 99 =
          (⟨0, 0, 10⟩ : DynamicallyBounded Int false))) :=
  ⟨by decide, C4_bound_invariant ⟨0, 0, 10⟩ (by decide) [.smin 5, .smax 3] 99⟩

/-- C8: in wrap mode, assigning an in-range value takes the pass-through
branch and stores it unchanged; in particular re-assigning the currently
stored in-range value leaves the runtime variant's state identical. -/
theorem C8_wrap_in_range_passthrough (mi ma v : Int) (h1 : mi ≤ v) (h2 : v ≤ ma)
    (d : DynamicallyBounded Int true) (hd1 : d.min_ ≤ d.value_) (hd2 : d.value_ ≤ d.max_) :
    (StaticallyBounded.assign mi ma true v).value_ = v ∧
    d.assign d.value_ = d := by
  constructor
  · unfold StaticallyBounded.assign
    rw [if_pos rfl, if_neg (by omega)]
  · unfold DynamicallyBounded.assign
    rw [if_pos rfl, if_neg (by omega)]

/-- C8 witness: range `[0, 11]` in wrap mode, assigning the in-range value 7
is a pass-through, and re-assigning a stored 7 leaves the runtime state
unchanged. -/
theorem C8_wrap_in_range_passthrough_witness :
    (0 : Int) ≤ 7 ∧ (7 : Int) ≤ 11 ∧
    (⟨7, 0, 11⟩ : DynamicallyBounded Int true).min_ ≤
      (⟨7, 0, 11⟩ : DynamicallyBounded Int true).value_ ∧
    (⟨7, 0, 11⟩ : DynamicallyBounded Int true).value_ ≤
      (⟨7, 0, 11⟩ : DynamicallyBounded Int true).max_ ∧
    (StaticallyBounded.assign 0 11 true 7).value_ = 7 ∧
    (⟨7, 0, 11⟩ : DynamicallyBounded Int true).assign
      (⟨7, 0, 11⟩ : DynamicallyBounded Int true).value_ =
      (⟨7, 0, 11⟩ : DynamicallyBounded Int true) := by
  have h := C8_wrap_in_range_passthrough 0 11 7 (by decide) (by decide)
    ⟨7, 0, 11⟩ (by decide) (by decide)
  exact ⟨by decide, by decide, by decide, by decide, h.1, h.2⟩

/-- C5: `setMin`/`setMax` never touch the stored `value_`, even when the
accepted bound leaves it outside the new range; concretely, a runtime ℚ
holder constructed as `(0.5, 0, 1)` keeps `value_ = 0.5` after
`setMin (3/5)`, and `normalize()` in that stale state returns `−1/4`,
outside `[0, 1]`. -/
theorem C5_lazy_reclamp {α : Type} [LinearOrder α] {w : Bool}
    (s : DynamicallyBounded α w) (v : α) :
    (s.setMin v).value_ = s.value_ ∧
    (s.setMax v).value_ = s.value_ ∧
    ((DynamicallyBounded.construct false ((1 : ℚ)/2) 0 1).setMin (3/5)).value_ = 1/2 ∧
    ((DynamicallyBounded.construct false ((1 : ℚ)/2) 0 1).setMin (3/5)).normalizeQ = -(1/4) ∧
    ((DynamicallyBounded.construct false ((1 : ℚ)/2) 0 1).setMin (3/5)).normalizeQ < 0 := by
  refine ⟨?_, ?_, ?_, ?_, ?_⟩
  · unfold DynamicallyBounded.setMin
    split_ifs <;> rfl
  · unfold DynamicallyBounded.setMax
    split_ifs <;> rfl
  · norm_num [DynamicallyBounded.construct, DynamicallyBounded.setMin, stdClamp, stdMax]
  · norm_num [DynamicallyBounded.construct, DynamicallyBounded.setMin,
      DynamicallyBounded.normalizeQ, stdClamp, stdMax]
  · norm_num [DynamicallyBounded.construct, DynamicallyBounded.setMin,
      DynamicallyBounded.normalizeQ, stdClamp, stdMax]

/-- C6: on the compile-time variant, the source's prefix `operator++`/`--`
return the pre-mutation snapshot while the receiver becomes
`assign(old ± 1)`, and the postfix forms apply the same assignment to the
receiver and return the mutated receiver itself. -/
theorem C6_inc_dec_return_contract (mi ma : Int) (w : Bool)
    (s : StaticallyBounded mi ma w) :
    s.preInc.2 = s ∧
    s.preInc.1 = StaticallyBounded.assign mi ma w (s.value_ + 1) ∧
    s.postInc.2 = s.postInc.1 ∧
    s.postInc.1 = StaticallyBounded.assign mi ma w (s.value_ + 1) ∧
    s.preDec.2 = s ∧
    s.preDec.1 = StaticallyBounded.assign mi ma w (s.value_ - 1) ∧
    s.postDec.2 = s.postDec.1 ∧
    s.postDec.1 = StaticallyBounded.assign mi ma w (s.value_ - 1) :=
  ⟨rfl, rfl, rfl, rfl, rfl, rfl, rfl, rfl⟩

/-- C9: with `max > min`, `normalize()` of either variant is 0 exactly at
`value = min`, 1 exactly at `value = max`, and linear in the stored value:
the difference of two normalizations is the difference of values divided by
the range width. -/
theorem C9_normalize_linear (mi ma : Int) (w : Bool) (h : mi < ma)
    (a b : StaticallyBounded mi ma w)
    (d : DynamicallyBounded Int w) (hd : d.min_ < d.max_)
    (q : DynamicallyBounded ℚ w) (hq : q.min_ < q.max_) (x y : ℚ) :
    (a.value_ = mi → a.normalize = 0) ∧
    (a.value_ = ma → a.normalize = 1) ∧
    (a.normalize - b.normalize = ((a.value_ - b.value_ : Int) : ℚ) / ((ma - mi : Int) : ℚ)) ∧
    (d.value_ = d.min_ → d.normalize = 0) ∧
    (d.value_ = d.max_ → d.normalize = 1) ∧
    (q.value_ = q.min_ → q.normalizeQ = 0) ∧
    (q.value_ = q.max_ → q.normalizeQ = 1) ∧
    (({ q with value_ := x } : DynamicallyBounded ℚ w).normalizeQ -
      ({ q with value_ := y } : DynamicallyBounded ℚ w).normalizeQ =
        (x - y) / (q.max_ - q.min_)) := by
  refine ⟨?_, ?_, ?_, ?_, ?_, ?_, ?_, ?_⟩
  · intro hv
    unfold StaticallyBounded.normalize
    rw [hv, sub_self]
    simp
  · intro hv
    unfold StaticallyBounded.normalize
    rw [hv]
    exact div_self (Int.cast_ne_zero.mpr (by omega))
  · unfold StaticallyBounded.normalize
    rw [div_sub_div_same]
    congr 1
    push_cast
    ring
  · intro hv
    unfold DynamicallyBounded.normalize
    rw [hv, sub_self]
    simp
  · intro hv
    unfold DynamicallyBounded.normalize
    rw [hv]
    exact div_self (Int.cast_ne_zero.mpr (by omega))
  · intro hv
    unfold DynamicallyBounded.normalizeQ
    rw [hv, sub_self, zero_div]
  · intro hv
    unfold DynamicallyBounded.normalizeQ
    rw [hv]
    exact div_self (by linarith)
  · unfold DynamicallyBounded.normalizeQ
    dsimp only
    rw [div_sub_div_same]
    congr 1
    ring

/-- C9 witness: static range `[0, 2]` with values 0 and 2, runtime integral
holder `(5, 0, 10)`, runtime ℚ holder `(1/2, 0, 1)` with substituted values
`1/2` and `0` — in particular stored `1/2` in `[0, 1]` normalizes to `1/2`. -/
theorem C9_normalize_linear_witness :
    (0 : Int) < 2 ∧
    (⟨5, 0, 10⟩ : DynamicallyBounded Int false).min_ <
      (⟨5, 0, 10⟩ : DynamicallyBounded Int false).max_ ∧
    (⟨1/2, 0, 1⟩ : DynamicallyBounded ℚ false).min_ <
      (⟨1/2, 0, 1⟩ : DynamicallyBounded ℚ false).max_ ∧
    (((⟨0⟩ : StaticallyBounded 0 2 false).value_ = 0 →
        (⟨0⟩ : StaticallyBounded 0 2 false).normalize = 0) ∧
      ((⟨0⟩ : StaticallyBounded 0 2 false).value_ = 2 →
        (⟨0⟩ : StaticallyBounded 0 2 false).normalize = 1) ∧
      ((⟨0⟩ : StaticallyBounded 0 2 false).normalize -
          (⟨2⟩ : StaticallyBounded 0 2 false).normalize =
        (((⟨0⟩ : StaticallyBounded 0 2 false).value_ -
            (⟨2⟩ : StaticallyBounded 0 2 false).value_ : Int) : ℚ) / ((2 - 0 : Int) : ℚ)) ∧
      ((⟨5, 0, 10⟩ : DynamicallyBounded Int false).value_ =
          (⟨5, 0, 10⟩ : DynamicallyBounded Int false).min_ →
        (⟨5, 0, 10⟩ : DynamicallyBounded Int false).normalize = 0) ∧
      ((⟨5, 0, 10⟩ : DynamicallyBounded Int false).value_ =
          (⟨5, 0, 10⟩ : DynamicallyBounded Int false).max_ →
        (⟨5, 0, 10⟩ : DynamicallyBounded Int false).normalize = 1) ∧
      ((⟨1/2, 0, 1⟩ : DynamicallyBounded ℚ false).value_ =
          (⟨1/2, 0, 1⟩ : DynamicallyBounded ℚ false).min_ →
        (⟨1/2, 0, 1⟩ : DynamicallyBounded ℚ false).normalizeQ = 0) ∧
      ((⟨1/2, 0, 1⟩ : DynamicallyBounded ℚ false).value_ =
          (⟨1/2, 0, 1⟩ : DynamicallyBounded ℚ false).max_ →
        (⟨1/2, 0, 1⟩ : DynamicallyBounded ℚ false).normalizeQ = 1) ∧
      (({ (⟨1/2, 0, 1⟩ : DynamicallyBounded ℚ false) with value_ := 1/2 }
          : DynamicallyBounded ℚ false).normalizeQ -
        ({ (⟨1/2, 0, 1⟩ : DynamicallyBounded ℚ false) with value_ := 0 }
          : DynamicallyBounded ℚ false).normalizeQ =
          ((1 : ℚ)/2 - 0) / ((⟨1/2, 0, 1⟩ : DynamicallyBounded ℚ false).max_ -
            (⟨1/2, 0, 1⟩ : DynamicallyBounded ℚ false).min_))) :=
  ⟨by decide, by decide, by norm_num,
    C9_normalize_linear 0 2 false (by decide) ⟨0⟩ ⟨2⟩ ⟨5, 0, 10⟩ (by decide)
      ⟨1/2, 0, 1⟩ (by norm_num) (1/2) 0⟩

/-- C10: `operator!=` is exactly the negation of `operator==` for instances
of the same instantiated type: the compile-time variant compares the current
values only, the runtime variant compares current value, min and max. -/
theorem C10_bne_negates_beq (mi ma : Int) (w : Bool)
    (l r : StaticallyBounded mi ma w)
    {α : Type} [DecidableEq α] {w2 : Bool} (dl dr : DynamicallyBounded α w2) :
    (StaticallyBounded.bne l r = !(StaticallyBounded.beq l r)) ∧
    (StaticallyBounded.beq l r = true ↔ l.value_ = r.value_) ∧
    (StaticallyBounded.bne l r = true ↔ l.value_ ≠ r.value_) ∧
    (DynamicallyBounded.bne dl dr = !(DynamicallyBounded.beq dl dr)) ∧
    (DynamicallyBounded.beq dl dr = true ↔
      dl.value_ = dr.value_ ∧ dl.min_ = dr.min_ ∧ dl.max_ = dr.max_) ∧
    (DynamicallyBounded.bne dl dr = true ↔
      dl.value_ ≠ dr.value_ ∨ dl.min_ ≠ dr.min_ ∨ dl.max_ ≠ dr.max_) := by
  refine ⟨rfl, ?_, ?_, ?_, ?_, ?_⟩
  · simp [StaticallyBounded.beq]
  · simp [StaticallyBounded.bne]
  · simp [DynamicallyBounded.bne, DynamicallyBounded.beq,
      DynamicallyBounded.getMin, DynamicallyBounded.getMax, bne, Bool.not_and]
  · simp [DynamicallyBounded.beq, DynamicallyBounded.getMin, DynamicallyBounded.getMax,
      and_assoc]
  · simp [DynamicallyBounded.bne, DynamicallyBounded.getMin, DynamicallyBounded.getMax,
      or_assoc]

end otto.util
